import Mathlib

/-!
Verification development for the `shrun` command runner.

The definitions below are a shallow embedding of the Python sources
(`shrun/parser.py`, `shrun/command.py`, `shrun/runner.py`).  Python dicts
are modelled as insertion-ordered association lists, Python exceptions as
an explicit `Except PyErr` result, and Python truthiness is made explicit
at each use site.  Side effects that matter to the statements (lines
printed to stderr, whether a child process was spawned) are returned as
explicit fields of the outcome values.
-/

set_option autoImplicit false

deriving instance DecidableEq for Except

namespace Shrun

/-- Python exceptions that the embedded code can raise. -/
inductive PyErr where
  | assertionError
  | keyError
  | indexError
  | attributeError
  | stopIteration
  | recursionError
deriving DecidableEq, Repr

/-- Insertion-ordered dict lookup (`d[k]` / `d.get(k)`): first binding wins. -/
def dictGet {α β : Type} [DecidableEq α] : List (α × β) → α → Option β
  | [], _ => none
  | (k0, v0) :: rest, k => if k0 = k then some v0 else dictGet rest k

/-- Insertion-ordered dict assignment (`d[k] = v`): updates the binding in
place when the key is present, otherwise appends it at the end, exactly as
a Python dict does. -/
def dictSet {α β : Type} [DecidableEq α] : List (α × β) → α → β → List (α × β)
  | [], k, v => [(k, v)]
  | (k0, v0) :: rest, k, v =>
    if k0 = k then (k0, v) :: rest else (k0, v0) :: dictSet rest k v

/-- Python `d.pop(k)` minus its return value: removes the binding for `k`,
keeping the order of the remaining bindings. -/
def dictRemove {α β : Type} [DecidableEq α] : List (α × β) → α → List (α × β)
  | [], _ => []
  | (k0, v0) :: rest, k =>
    if k0 = k then rest else (k0, v0) :: dictRemove rest k

/-- Python truthiness of an optional string (`if name:`): `None` and the
empty string are falsy. -/
def strTruthy : Option String → Bool
  | none => false
  | some s => !s.isEmpty

/-! ## Template expander (`shrun/parser.py`) -/

/-- One token of a command text: either a literal span or the contents of
one `\x7b\x7b...\x7d\x7d` series occurrence. -/
inductive Tok where
  | lit (s : List Char)
  | ser (content : List Char)
deriving DecidableEq, Repr

/-- Splits a character list at the first `\x7d\x7d` closer, returning the
characters before it and the characters after it.  Models where
`pyparsing.nestedExpr` ends a series occurrence (for the texts considered
here: no nested or quoted braces inside a series). -/
def findCloser : List Char → Option (List Char × List Char)
  | [] => none
  | c :: rest =>
    if c = '\x7d' then
      match rest with
      | [] => none
      | r :: rest2 =>
        if r = '\x7d' then some ([], rest2)
        else (findCloser rest).map (fun p => (c :: p.1, p.2))
    else (findCloser rest).map (fun p => (c :: p.1, p.2))

/-- Prepends a literal character to a token list, merging it into a
leading literal token when there is one. -/
def consLit (c : Char) : List Tok → List Tok
  | Tok.lit l :: ts => Tok.lit (c :: l) :: ts
  | ts => Tok.lit [c] :: ts

/-- Splits a command text into literal spans and series occurrences, in
order, recursing on an explicit fuel so that the definition reduces by
computation.  Every recursive call consumes at least one character, so
any fuel at least the text length gives the untruncated answer. -/
def tokenizeFuel : Nat → List Char → List Tok
  | _, [] => []
  | 0, s => [Tok.lit s]
  | fuel + 1, '\x7b' :: '\x7b' :: rest =>
    match findCloser rest with
    | some (content, rest2) => Tok.ser content :: tokenizeFuel fuel rest2
    | none => consLit '\x7b' (tokenizeFuel fuel ('\x7b' :: rest))
  | fuel + 1, c :: rest => consLit c (tokenizeFuel fuel rest)

/-- Models the successive matches of
`pyparsing.nestedExpr('\x7b\x7b', '\x7d\x7d').scanString` over a command
text, for texts whose series are non-nested single tokens (true of every
text in this development); an unclosed `\x7b\x7b` matches nothing. -/
def tokenize (s : List Char) : List Tok := tokenizeFuel s.length s

/-- A parsed series: an optional label and the item list (`_Series`). -/
structure Series where
  label : Option (List Char)
  items : List (List Char)
deriving DecidableEq, Repr

/-- Characters allowed in a series label:
`pyparsing.Word(alphas + underscore)`. -/
def isLabelChar (c : Char) : Bool := c.isAlpha || c = '_'

/-- Prepends a character to the first chunk of a comma-split. -/
def consHead (c : Char) : List (List Char) → List (List Char)
  | [] => [[c]]
  | x :: xs => (c :: x) :: xs

/-- Splits on commas (the `items` production of `SERIES_LIST_PARSER` for
whitespace-free contents). -/
def splitComma : List Char → List (List Char)
  | [] => [[]]
  | c :: rest => if c = ',' then [] :: splitComma rest else consHead c (splitComma rest)

/-- Parses the text of a series occurrence (`_Series.__init__` on a
string): an optional `label:` head made of label characters, then the
comma-separated items. -/
def parseSeries (s : List Char) : Series :=
  let pre := s.takeWhile isLabelChar
  match pre, s.drop pre.length with
  | _ :: _, ':' :: rest => ⟨some pre, splitComma rest⟩
  | _, _ => ⟨none, splitComma s⟩

/-- Models `_Series.labeled`: truthiness of the stored label. -/
def Series.labeled (s : Series) : Bool :=
  match s.label with
  | some l => !l.isEmpty
  | none => false

/-- Joins items with commas (`','.join(self.items)`). -/
def joinComma : List (List Char) → List Char
  | [] => []
  | [x] => x
  | x :: xs => x ++ ',' :: joinComma xs

/-- Models the `_Series.label` property: the stored label when truthy, otherwise the
comma-join of the items.  `_Series.__eq__` compares this key. -/
def Series.labelKey (s : Series) : List Char :=
  match s.label with
  | some l => if l.isEmpty then joinComma s.items else l
  | none => joinComma s.items

/-- Picks the item list used to substitute a matching occurrence
(`_expand_value` body): a labeled occurrence must have the same item
count as the target (assertion `Mapping ... must be 1-1`) and supplies
its own items; an unlabeled occurrence uses the target's items. -/
def substItems (target occ : Series) : Except PyErr (List (List Char)) :=
  if occ.labeled then
    if occ.items.length = target.items.length then Except.ok occ.items
    else Except.error PyErr.assertionError
  else Except.ok target.items

/-- String case of `_expand_value`: rebuilds the text, substituting item
`index` for every occurrence equal to `target` and leaving the other
occurrences and all literal spans verbatim. -/
def expandTokens (target : Series) (index : Nat) : List Tok → Except PyErr (List Char)
  | [] => Except.ok []
  | Tok.lit l :: ts => (expandTokens target index ts).map (fun r => l ++ r)
  | Tok.ser s :: ts =>
    let occ := parseSeries s
    if occ.labelKey = target.labelKey then
      match substItems target occ with
      | Except.error e => Except.error e
      | Except.ok items =>
        match items[index]? with
        | none => Except.error PyErr.indexError
        | some item => (expandTokens target index ts).map (fun r => item ++ r)
    else
      (expandTokens target index ts).map
        (fun r => '\x7b' :: '\x7b' :: (s ++ '\x7d' :: '\x7d' :: r))

/-- A constructed `Command` value: the newline-trimmed text and its
feature mapping.  Feature values are modelled as strings, the only case
`_expand_value` rewrites. -/
structure PCommand where
  command : List Char
  features : List (List Char × List Char)
deriving DecidableEq, Repr

/-- Dict case of `_expand_value` applied to the feature mapping: keys are
kept, values are expanded. -/
def expandFeatures (target : Series) (index : Nat) :
    List (List Char × List Char) → Except PyErr (List (List Char × List Char))
  | [] => Except.ok []
  | (k, v) :: rest =>
    match expandTokens target index (tokenize v) with
    | Except.error e => Except.error e
    | Except.ok v2 =>
      (expandFeatures target index rest).map (fun r => (k, v2) :: r)

/-- Models `Command.expand_series`: expands one series at one index in both the
command text and every feature value. -/
def expand_series (c : PCommand) (target : Series) (index : Nat) :
    Except PyErr PCommand :=
  match expandTokens target index (tokenize c.command) with
  | Except.error e => Except.error e
  | Except.ok cmd =>
    match expandFeatures target index c.features with
    | Except.error e => Except.error e
    | Except.ok feats => Except.ok ⟨cmd, feats⟩

/-- Content of the first series occurrence of a text
(`next(matches)[0][0][0]` in `generate_all_commands`). -/
def firstSeriesContent (s : List Char) : Option (List Char) :=
  (tokenize s).findSome? fun t =>
    match t with
    | Tok.ser content => some content
    | Tok.lit _ => none

/-- The per-index loop of `generate_all_commands`: expands the command at
each index in turn and concatenates the recursive expansions, `rec`
standing for the recursive call. -/
def expandAtIndices (rec : PCommand → Except PyErr (List PCommand))
    (c : PCommand) (target : Series) :
    List Nat → Except PyErr (List PCommand)
  | [] => Except.ok []
  | i :: is =>
    match expand_series c target i with
    | Except.error e => Except.error e
    | Except.ok c2 =>
      match rec c2 with
      | Except.error e => Except.error e
      | Except.ok cs =>
        (expandAtIndices rec c target is).map (fun r => cs ++ r)

/-- Models `Command.generate_all_commands` with explicit recursion fuel: no
series in the text yields the command unchanged, otherwise the first
series is expanded at every item index and expansion recurses.  Each
recursion step removes at least the first occurrence, so any fuel larger
than the text length is enough. -/
def generateAllCommandsFuel : Nat → PCommand → Except PyErr (List PCommand)
  | 0, _ => Except.error PyErr.recursionError
  | fuel + 1, c =>
    match firstSeriesContent c.command with
    | none => Except.ok [c]
    | some content =>
      let target := parseSeries content
      expandAtIndices (generateAllCommandsFuel fuel) c target
        (List.range target.items.length)

/-- Models `Command.generate_all_commands`, with fuel fixed above the text
length. -/
def generate_all_commands (c : PCommand) : Except PyErr (List PCommand) :=
  generateAllCommandsFuel (c.command.length + 1) c

/-- A command with no features, from a string literal. -/
def cmdOfStr (s : String) : PCommand := ⟨s.data, []⟩

/-! ## SharedContext (`shrun/command.py`) -/

/-- State of a `SharedContext` for one run: `_name_result` maps a registered
name to `none` (pending) or `some passed` (terminal), `_predicates` maps
a predicate name to its boolean. -/
structure SharedContext where
  name_result : List (String × Option Bool)
  predicates : List (String × Bool)
deriving DecidableEq, Repr

/-- Models `SharedContext.register_name`: a falsy name registers nothing; a
truthy name already present fails the `already in use` assertion;
otherwise the name is recorded with the pending value `None`. -/
def register_name (ctx : SharedContext) (name : Option String) :
    Except PyErr SharedContext :=
  if strTruthy name = false then Except.ok ctx
  else
    match name with
    | none => Except.ok ctx
    | some n =>
      if (dictGet ctx.name_result n).isSome then Except.error PyErr.assertionError
      else Except.ok ⟨dictSet ctx.name_result n none, ctx.predicates⟩

/-- Left-to-right, short-circuiting
`any(self._name_result[d] is None for d in depends_on)`: a missing name
raises `KeyError`; a pending name makes the generator yield `True` and
`any` stop. -/
def anyPending (m : List (String × Option Bool)) : List String → Except PyErr Bool
  | [] => Except.ok false
  | d :: ds =>
    match dictGet m d with
    | none => Except.error PyErr.keyError
    | some none => Except.ok true
    | some (some _) => anyPending m ds

/-- Outcome of `SharedContext.wait_for_dependencies` against one snapshot
of the name table: the worker blocks on the condition variable while some
dependency is pending; once every dependency is terminal it returns the
names whose result is falsy. -/
inductive WaitOutcome where
  | blocked
  | keyErr
  | ready (failed : List String)
deriving DecidableEq, Repr

/-- Models `SharedContext.wait_for_dependencies`. -/
def wait_for_dependencies (ctx : SharedContext) (depends_on : List String) :
    WaitOutcome :=
  match anyPending ctx.name_result depends_on with
  | Except.error _ => WaitOutcome.keyErr
  | Except.ok true => WaitOutcome.blocked
  | Except.ok false =>
    WaitOutcome.ready
      (depends_on.filter fun d => dictGet ctx.name_result d = some (some false))

/-- Models `SharedContext.mark_as_done`: a truthy name is set to the terminal
value `success` (and the condition variable broadcast); a falsy name does
nothing. -/
def mark_as_done (ctx : SharedContext) (name : Option String) (success : Bool) :
    SharedContext :=
  if strTruthy name then
    match name with
    | some n => ⟨dictSet ctx.name_result n (some success), ctx.predicates⟩
    | none => ctx
  else ctx

/-- Models `SharedContext.set_predicates`: stores `passed` for each listed
predicate name. -/
def set_predicates (ctx : SharedContext) (passed : Bool)
    (predicates : List String) : SharedContext :=
  match predicates with
  | [] => ctx
  | p :: rest =>
    set_predicates ⟨ctx.name_result, dictSet ctx.predicates p passed⟩ passed rest

/-- Left-to-right, short-circuiting
`any(self._predicates[p] for p in preds)`: a missing predicate raises
`KeyError`; a true predicate stops the scan. -/
def anyTrue (preds : List (String × Bool)) : List String → Except PyErr Bool
  | [] => Except.ok false
  | p :: rest =>
    match dictGet preds p with
    | none => Except.error PyErr.keyError
    | some b => if b then Except.ok true else anyTrue preds rest

/-- Models `SharedContext.should_skip`: asserts that `if` and `unless` are not
mixed, then evaluates the truthiness of
`(if_preds and not any(...)) or (unless_preds and any(...))` with
Python's short-circuit order. -/
def should_skip (preds : List (String × Bool))
    (if_preds unless_preds : List String) : Except PyErr Bool :=
  if !if_preds.isEmpty && !unless_preds.isEmpty then
    Except.error PyErr.assertionError
  else
    match
      (if if_preds.isEmpty then Except.ok false
       else (anyTrue preds if_preds).map (fun a => !a)) with
    | Except.error e => Except.error e
    | Except.ok true => Except.ok true
    | Except.ok false =>
      if unless_preds.isEmpty then Except.ok false
      else anyTrue preds unless_preds

/-! ## Process supervisor (`shrun/runner.py`) -/

/-- The fixed colour palette, in pool order. -/
def COLORS : List String := ["yellow", "blue", "red", "green", "magenta", "cyan"]

/-- The colour pool at runner construction: every colour with in-use
count zero, in palette order. -/
def initColors : List (String × Nat) := COLORS.map (fun c => (c, 0))

/-- Value produced by `next(chain((c for c, count in colors.items() if
count == 0), colors.items()))` in `Runner.using_color`: the first colour
with count zero when one exists, otherwise the first `(colour, count)`
pair of the map itself. -/
inductive LeasePick where
  | freeColor (c : String)
  | busyPair (p : String × Nat)
  | exhausted
deriving DecidableEq, Repr

/-- The `next(chain(...))` pick of `Runner.using_color`. -/
def leasePick (colors : List (String × Nat)) : LeasePick :=
  match colors.find? (fun p => p.2 == 0) with
  | some p => LeasePick.freeColor p.1
  | none =>
    match colors with
    | [] => LeasePick.exhausted
    | p :: _ => LeasePick.busyPair p

/-- Acquisition half of `Runner.using_color`:
`colors[color] = colors.pop(color) + 1` re-adds the chosen colour at the
most-recently-used end with its count incremented.  When no colour is
free the picked value is a `(colour, count)` pair, and `OrderedDict.pop`
on that pair raises `KeyError`; an empty pool would make `next` raise
`StopIteration`. -/
def using_color_acquire (colors : List (String × Nat)) :
    Except PyErr (String × List (String × Nat)) :=
  match leasePick colors with
  | LeasePick.freeColor c =>
    match dictGet colors c with
    | some count => Except.ok (c, dictRemove colors c ++ [(c, count + 1)])
    | none => Except.error PyErr.keyError
  | LeasePick.busyPair _ => Except.error PyErr.keyError
  | LeasePick.exhausted => Except.error PyErr.stopIteration

/-- Release half of `Runner.using_color`: `self._colors[color] -= 1`
decrements the count in place. -/
def using_color_release (colors : List (String × Nat)) (c : String) :
    Except PyErr (List (String × Nat)) :=
  match dictGet colors c with
  | some count => Except.ok (dictSet colors c (count - 1))
  | none => Except.error PyErr.keyError

/-- A word character of Python's `\w` class in the ASCII range:
letters, digits and the underscore. -/
def isWordChar (c : Char) : Bool := c.isAlphanum || c = '_'

/-- The first maximal run of word characters of a text, when there is
one: what the `re.search` for the one-or-more-word-characters pattern in
`Runner.create_name` matches. -/
def firstWordRun : List Char → Option (List Char)
  | [] => none
  | c :: rest =>
    if isWordChar c then some ((c :: rest).takeWhile isWordChar)
    else firstWordRun rest

/-- Models `Runner.create_name`: a truthy declared name is used as is; otherwise
the first word-character run of the command text names the log files,
suffixed with a per-runner counter on collisions.  When the text has no
word character, `re.search` returns `None` and `.group(0)` raises
`AttributeError`.  Returns the chosen name and the updated
`_name_counts`. -/
def create_name (name_counts : List (String × Nat)) (name : Option String)
    (command : String) : Except PyErr (String × List (String × Nat)) :=
  if strTruthy name then Except.ok (name.getD "", name_counts)
  else
    match firstWordRun command.data with
    | none => Except.error PyErr.attributeError
    | some w =>
      let wn : String := ⟨w⟩
      match dictGet name_counts wn with
      | some k =>
        Except.ok (wn ++ "_" ++ toString (k + 1), dictSet name_counts wn (k + 1))
      | none => Except.ok (wn, dictSet name_counts wn 0)

/-- The attempt loop of `Runner._run`: `rets attempt` is the exit status
the supervised child of that attempt ends with, `remaining` the attempts
still allowed after the current one.  An attempt passes when its status
is zero; the loop stops on a pass or when the runner is being torn down,
and otherwise retries until no attempt remains, reporting the last
attempt's result. -/
def runAttempts (rets : Nat → Int) (dead : Bool) : Nat → Nat → Bool
  | attempt, 0 => rets attempt == 0
  | attempt, remaining + 1 =>
    let passed := rets attempt == 0
    if passed || dead then passed
    else runAttempts rets dead (attempt + 1) remaining

/-- The pass/fail result of `Runner._run`: the skip fast-path returns
`True` without spawning; otherwise the attempt loop decides.  The
`ignore_status` argument is accepted but plays no part in the result. -/
def runner_run (skip : Bool) (rets : Nat → Int) (retries : Nat)
    (ignore_status : Bool) (dead : Bool) : Bool :=
  if skip then true
  else
    let _ := ignore_status
    runAttempts rets dead 0 retries

/-- The final status line printed by `Runner._run` (next to the elapsed
time): `ignore_status` only softens the failure message. -/
def runMessage (passed : Bool) (dead : Bool) (ignore_status : Bool) : String :=
  if passed then "Done"
  else if dead then "Terminated"
  else if ignore_status then "Failed"
  else "FAILED"

/-! ## Job worker (`shrun/command.py` `Job.run`, `shrun/runner.py`) -/

/-- The features of a `Job`'s command after `Job.tags` extraction: the
list-valued keywords as string lists, `name` as the optional declared
name, `retries` with its default `0`. -/
structure JobFeatures where
  name : Option String
  background : Bool
  depends_on : List String
  ifPreds : List String
  unlessPreds : List String
  setPreds : List String
  retries : Nat
deriving DecidableEq, Repr

/-- What one call of `Job.run` does, given the supervised child's exit
statuses: the worker can block forever on a pending dependency, die of an
exception, or finish with a pass/fail result, the updated shared context,
the failed-dependency list of a red `NOT STARTED` stderr line when one
was printed, and whether any child process was spawned. -/
inductive JobOutcome where
  | blocked
  | pyError (e : PyErr)
  | finished (passed : Bool) (ctx2 : SharedContext)
      (notStartedFailedDeps : Option (List String)) (spawned : Bool)
deriving DecidableEq, Repr

/-- Models `Job.run`: wait on the dependencies; when some failed, print the red
`NOT STARTED` line to stderr and return `False` with the context
untouched; otherwise compute `skip`, run the command with
`ignore_status = bool(set)`, mark the name done with the result and
assign the `set` predicates from it, and return the result. -/
def jobRun (f : JobFeatures) (ctx : SharedContext) (rets : Nat → Int)
    (dead : Bool) : JobOutcome :=
  match wait_for_dependencies ctx f.depends_on with
  | WaitOutcome.blocked => JobOutcome.blocked
  | WaitOutcome.keyErr => JobOutcome.pyError PyErr.keyError
  | WaitOutcome.ready failedDeps =>
    if !failedDeps.isEmpty then
      JobOutcome.finished false ctx (some failedDeps) false
    else
      match should_skip ctx.predicates f.ifPreds f.unlessPreds with
      | Except.error e => JobOutcome.pyError e
      | Except.ok skip =>
        let passed := runner_run skip rets f.retries (!f.setPreds.isEmpty) dead
        let ctx1 := mark_as_done ctx f.name passed
        let ctx2 := set_predicates ctx1 passed f.setPreds
        JobOutcome.finished passed ctx2 none (!skip)

/-- Models `Runner._run_job`: stores the job result in the per-job-id results
table. -/
def run_job_record (results : List (Nat × Option Bool)) (jobId : Nat)
    (passed : Bool) : List (Nat × Option Bool) :=
  dictSet results jobId (some passed)

/-- Models `Runner.failures`: the job ids whose recorded result is `False`. -/
def failures (results : List (Nat × Option Bool)) : List Nat :=
  (results.filter fun p => p.2 == some false).map (fun p => p.1)

/-- The `failed` field of `RunnerResults` as assembled in `run_commands`:
the started command of every failed job id (every started id is present
in the table, so the lookups always succeed). -/
def runnerResultsFailed (started : List (Nat × PCommand))
    (results : List (Nat × Option Bool)) : List (Option PCommand) :=
  (failures results).map (dictGet started)

/-! ## Helper lemmas -/

theorem dictGet_dictSet_self {α β : Type} [DecidableEq α]
    (m : List (α × β)) (k : α) (v : β) : dictGet (dictSet m k v) k = some v := by
  induction m with
  | nil => simp [dictGet, dictSet]
  | cons kv rest ih =>
    obtain ⟨k0, v0⟩ := kv
    by_cases h : k0 = k
    · simp [dictGet, dictSet, h]
    · simp [dictGet, dictSet, h, ih]

theorem anyTrue_ok (preds : List (String × Bool)) :
    ∀ l : List String, (∀ p ∈ l, (dictGet preds p).isSome) →
      anyTrue preds l =
        Except.ok (decide (∃ p ∈ l, dictGet preds p = some true)) := by
  intro l
  induction l with
  | nil => intro _; simp [anyTrue]
  | cons p rest ih =>
    intro hdef
    obtain ⟨b, hb⟩ := Option.isSome_iff_exists.mp (hdef p (by simp))
    have ihr := ih (fun q hq => hdef q (by simp [hq]))
    cases b with
    | true =>
      have hex : ∃ q ∈ p :: rest, dictGet preds q = some true := ⟨p, by simp, hb⟩
      simp [anyTrue, hb, hex]
    | false =>
      have hiff : (∃ q ∈ p :: rest, dictGet preds q = some true) ↔
          (∃ q ∈ rest, dictGet preds q = some true) := by
        constructor
        · rintro ⟨q, hq, hqt⟩
          rcases List.mem_cons.mp hq with rfl | hq2
          · rw [hb] at hqt; simp at hqt
          · exact ⟨q, hq2, hqt⟩
        · rintro ⟨q, hq, hqt⟩
          exact ⟨q, by simp [hq], hqt⟩
      simp [anyTrue, hb, ihr, hiff]

theorem anyTrue_keyError (preds : List (String × Bool)) (p : String)
    (rest : List String) (hp : dictGet preds p = none) :
    ∀ qs : List String, (∀ q ∈ qs, dictGet preds q = some false) →
      anyTrue preds (qs ++ p :: rest) = Except.error PyErr.keyError := by
  intro qs
  induction qs with
  | nil => intro _; simp [anyTrue, hp]
  | cons q qs ih =>
    intro hqs
    have hq : dictGet preds q = some false := hqs q (by simp)
    have ihr := ih (fun r hr => hqs r (by simp [hr]))
    simp [anyTrue, hq, ihr]

theorem firstWordRun_eq_none (l : List Char)
    (h : ∀ c ∈ l, isWordChar c = false) : firstWordRun l = none := by
  induction l with
  | nil => simp [firstWordRun]
  | cons c rest ih =>
    have hc : isWordChar c = false := h c (by simp)
    exact (by simp [firstWordRun, hc, ih (fun d hd => h d (by simp [hd]))])

theorem firstWordRun_isSome (l : List Char) (c : Char) (hc : c ∈ l)
    (hw : isWordChar c = true) : (firstWordRun l).isSome := by
  induction l with
  | nil => simp at hc
  | cons d rest ih =>
    by_cases hd : isWordChar d
    · simp [firstWordRun, hd]
    · rcases List.mem_cons.mp hc with rfl | hc2
      · rw [hw] at hd; simp at hd
      · simp [firstWordRun, hd, ih hc2]

/-! ## Claims -/

/-- Claim C1, at the failing input: a job whose command carries the
non-empty `set` list `[flag]` and whose child exits with status 1 is
returned failed by `Job.run` (the predicate `flag` is assigned `false`),
its recorded result puts its command into the `failed` list of the run's
`RunnerResults`, and the non-empty `set` only softens the printed status
line to `Failed` — contrary to the claim that such a command never
appears in the failed list. -/
theorem c1_set_nonzero_exit_is_counted_failed :
    jobRun ⟨none, false, [], [], [], ["flag"], 0⟩ ⟨[], []⟩ (fun _ => 1) false =
      JobOutcome.finished false ⟨[], [("flag", false)]⟩ none true
    ∧ runnerResultsFailed [(0, cmdOfStr "false")] (run_job_record [(0, none)] 0 false) =
      [some (cmdOfStr "false")]
    ∧ runMessage false false true = "Failed" := by
  decide

/-- Claim C2, amended behaviour at the failing input: a job named `b`
depending on the failed name `a` does not spawn a child, prints the red
`NOT STARTED` stderr line listing `a`, is recorded failed in the results
table — but the shared context is returned untouched, so its own name
`b` is left pending instead of being marked terminally failed. -/
theorem c2_not_started_leaves_own_name_pending :
    jobRun ⟨some "b", false, ["a"], [], [], [], 0⟩
        ⟨[("a", some false), ("b", none)], []⟩ (fun _ => 0) false =
      JobOutcome.finished false ⟨[("a", some false), ("b", none)], []⟩
        (some ["a"]) false
    ∧ dictGet ([("a", some false), ("b", none)] : List (String × Option Bool)) "b" =
      some none
    ∧ failures (run_job_record [(7, none)] 7 false) = [7] := by
  decide

/-- Claim C3: on a pool where `blue` and `green` are the free colours,
the lease picks `blue` (the least-recently-used free colour), increments
its count and re-adds it at the most-recently-used end, and the release
decrements it in place; but on a pool with no free colour the lease
raises `KeyError` (the `next` over `chain` yields a `(colour, count)`
pair and `OrderedDict.pop` fails on it) instead of returning the
least-recently-used colour overall. -/
theorem c3_color_pool_lease_and_busy_crash :
    using_color_acquire
        [("yellow", 1), ("blue", 0), ("red", 2), ("green", 0),
         ("magenta", 1), ("cyan", 1)] =
      Except.ok ("blue",
        [("yellow", 1), ("red", 2), ("green", 0), ("magenta", 1),
         ("cyan", 1), ("blue", 1)])
    ∧ using_color_release
        [("yellow", 1), ("red", 2), ("green", 0), ("magenta", 1),
         ("cyan", 1), ("blue", 1)] "blue" =
      Except.ok
        [("yellow", 1), ("red", 2), ("green", 0), ("magenta", 1),
         ("cyan", 1), ("blue", 0)]
    ∧ using_color_acquire
        [("yellow", 1), ("blue", 1), ("red", 1), ("green", 1),
         ("magenta", 1), ("cyan", 1)] =
      Except.error PyErr.keyError := by
  decide

/-- Claim C4: every occurrence with the identity of the series being
expanded is substituted at the same item index, so the command
`echo test\x7b\x7bmy:A,B\x7d\x7d\x7b\x7bmy\x7d\x7d` expands to exactly
`echo testAA` then `echo testBB` (never a mixed `testAB`), and two
labeled series sharing a label but differing in item count fail the
expansion with an assertion, so no command of that template is ever
produced. -/
theorem c4_shared_identity_co_expansion :
    generate_all_commands (cmdOfStr "echo test\x7b\x7bmy:A,B\x7d\x7d\x7b\x7bmy\x7d\x7d") =
      Except.ok [cmdOfStr "echo testAA", cmdOfStr "echo testBB"]
    ∧ generate_all_commands (cmdOfStr "echo \x7b\x7bmy:A,B\x7d\x7d\x7b\x7bmy:X,Y,Z\x7d\x7d") =
      Except.error PyErr.assertionError := by
  decide

/-- Claim C6: two distinct unlabeled series expand to the cartesian
product of their item lists with the leftmost series varying slowest:
`echo test\x7b\x7bA,B\x7d\x7d\x7b\x7b1,2\x7d\x7d` yields, in order,
`echo testA1`, `echo testA2`, `echo testB1`, `echo testB2`. -/
theorem c6_cartesian_product_leftmost_slowest :
    generate_all_commands (cmdOfStr "echo test\x7b\x7bA,B\x7d\x7d\x7b\x7b1,2\x7d\x7d") =
      Except.ok [cmdOfStr "echo testA1", cmdOfStr "echo testA2",
        cmdOfStr "echo testB1", cmdOfStr "echo testB2"] := by
  decide

/-- Claim C7: `register_name` registers nothing for an absent or empty
name, fails the `already in use` assertion for a non-empty name already
present in the name-result map, and records an absent non-empty name
with the pending value. -/
theorem c7_register_name_spec (ctx : SharedContext) (s : String) :
    (register_name ctx none = Except.ok ctx)
    ∧ (register_name ctx (some "") = Except.ok ctx)
    ∧ (s.isEmpty = false → (dictGet ctx.name_result s).isSome →
        register_name ctx (some s) = Except.error PyErr.assertionError)
    ∧ (s.isEmpty = false → dictGet ctx.name_result s = none →
        ∃ ctx2, register_name ctx (some s) = Except.ok ctx2
          ∧ dictGet ctx2.name_result s = some none
          ∧ ctx2.predicates = ctx.predicates) := by
  have hempty : strTruthy (some "") = false := by decide
  refine ⟨by simp [register_name, strTruthy], by simp [register_name, hempty], ?_, ?_⟩
  · intro hs hin
    simp [register_name, strTruthy, hs, hin]
  · intro hs hout
    refine ⟨⟨dictSet ctx.name_result s none, ctx.predicates⟩, ?_, ?_, rfl⟩
    · simp [register_name, strTruthy, hs, hout]
    · exact dictGet_dictSet_self ctx.name_result s none

/-- Witness for C7 at a concrete context: re-registering `a` fails the
assertion, registering the fresh name `b` records it pending. -/
theorem c7_register_name_spec_witness :
    register_name ⟨[("a", some true)], []⟩ (some "a") = Except.error PyErr.assertionError
    ∧ ∃ ctx2, register_name ⟨[("a", some true)], []⟩ (some "b") = Except.ok ctx2
        ∧ dictGet ctx2.name_result "b" = some none
        ∧ ctx2.predicates = ([] : List (String × Bool)) := by
  exact ⟨(c7_register_name_spec ⟨[("a", some true)], []⟩ "a").2.2.1 (by decide) (by decide),
    (c7_register_name_spec ⟨[("a", some true)], []⟩ "b").2.2.2 (by decide) (by decide)⟩

/-- Claim C8: expansion is the identity on series-free commands — when
the command text has no series occurrence, `generate_all_commands`
yields exactly the command, unchanged. -/
theorem c8_expansion_identity_on_series_free (c : PCommand)
    (h : firstSeriesContent c.command = none) :
    generate_all_commands c = Except.ok [c] := by
  simp [generate_all_commands, generateAllCommandsFuel, h]

/-- Witness for C8 at a concrete series-free command with a feature. -/
theorem c8_expansion_identity_witness :
    generate_all_commands ⟨"echo hello".data, [("name".data, "greet".data)]⟩ =
      Except.ok [⟨"echo hello".data, [("name".data, "greet".data)]⟩] :=
  c8_expansion_identity_on_series_free
    ⟨"echo hello".data, [("name".data, "greet".data)]⟩ (by decide)

/-- Claim C9: an unnamed command whose text has no word character makes
`create_name` raise (the regex search finds nothing and `.group(0)`
fails), and an unnamed command text containing at least one word
character always yields a name. -/
theorem c9_create_name_needs_word_char (counts : List (String × Nat))
    (name : Option String) (command : String)
    (hname : strTruthy name = false) :
    ((∀ c ∈ command.data, isWordChar c = false) →
      create_name counts name command = Except.error PyErr.attributeError)
    ∧ ((∃ c ∈ command.data, isWordChar c = true) →
      ∃ r, create_name counts name command = Except.ok r) := by
  constructor
  · intro hall
    simp [create_name, hname, firstWordRun_eq_none command.data hall]
  · rintro ⟨c, hc, hw⟩
    obtain ⟨w, hws⟩ :=
      Option.isSome_iff_exists.mp (firstWordRun_isSome command.data c hc hw)
    cases hcount : dictGet counts (⟨w⟩ : String) with
    | none =>
      exact ⟨((⟨w⟩ : String), dictSet counts ⟨w⟩ 0),
        by simp [create_name, hname, hws, hcount]⟩
    | some k =>
      exact ⟨((⟨w⟩ : String) ++ "_" ++ toString (k + 1), dictSet counts ⟨w⟩ (k + 1)),
        by simp [create_name, hname, hws, hcount]⟩

/-- Claim C5: `should_skip` fails its assertion whenever both predicate
lists are non-empty; otherwise, when every listed predicate is present
in the store, it returns true exactly when the `if` list is non-empty
with none of its predicates true, or the `unless` list is non-empty with
some predicate true. -/
theorem c5_should_skip_spec (preds : List (String × Bool))
    (ifP unlessP : List String) :
    (ifP ≠ [] → unlessP ≠ [] →
      should_skip preds ifP unlessP = Except.error PyErr.assertionError)
    ∧ ((∀ p ∈ ifP ++ unlessP, (dictGet preds p).isSome) →
        (ifP = [] ∨ unlessP = []) →
        should_skip preds ifP unlessP =
          Except.ok (decide
            ((ifP ≠ [] ∧ ∀ p ∈ ifP, ¬ dictGet preds p = some true)
              ∨ (unlessP ≠ [] ∧ ∃ p ∈ unlessP, dictGet preds p = some true)))) := by
  constructor
  · intro h1 h2
    cases ifP with
    | nil => exact absurd rfl h1
    | cons a as =>
      cases unlessP with
      | nil => exact absurd rfl h2
      | cons b bs => simp [should_skip]
  · intro hdef hdisj
    cases ifP with
    | nil =>
      cases unlessP with
      | nil => simp [should_skip]
      | cons b bs =>
        have hu := anyTrue_ok preds (b :: bs) (fun p hp => hdef p (by simp [hp]))
        simp [should_skip, hu]
    | cons a as =>
      have hul : unlessP = [] := by
        rcases hdisj with h | h
        · cases h
        · exact h
      subst hul
      have hi := anyTrue_ok preds (a :: as) (fun p hp => hdef p (by simp [hp]))
      by_cases hex : ∃ p ∈ a :: as, dictGet preds p = some true
      · have hd : decide (∃ p ∈ a :: as, dictGet preds p = some true) = true :=
          decide_eq_true hex
        have hres : should_skip preds (a :: as) [] = Except.ok false := by
          simp only [should_skip]
          rw [hi, hd]
          rfl
        rw [hres]
        have hnot : ¬ (((a :: as) ≠ [] ∧ ∀ p ∈ a :: as, ¬ dictGet preds p = some true)
            ∨ (([] : List String) ≠ [] ∧
                ∃ p ∈ ([] : List String), dictGet preds p = some true)) := by
          rintro (⟨-, hall⟩ | ⟨hne, -⟩)
          · obtain ⟨p, hp, ht⟩ := hex
            exact hall p hp ht
          · exact hne rfl
        rw [decide_eq_false hnot]
      · have hd : decide (∃ p ∈ a :: as, dictGet preds p = some true) = false :=
          decide_eq_false hex
        have hres : should_skip preds (a :: as) [] = Except.ok true := by
          simp only [should_skip]
          rw [hi, hd]
          rfl
        rw [hres]
        have hyes : (((a :: as) ≠ [] ∧ ∀ p ∈ a :: as, ¬ dictGet preds p = some true)
            ∨ (([] : List String) ≠ [] ∧
                ∃ p ∈ ([] : List String), dictGet preds p = some true)) :=
          Or.inl ⟨by simp, fun p hp ht => hex ⟨p, hp, ht⟩⟩
        rw [decide_eq_true hyes]

/-- Witness for C5: a stored-false `if` predicate makes the command
skip; mixing `if` and `unless` fails the assertion. -/
theorem c5_should_skip_spec_witness :
    should_skip [("x", false)] ["x"] [] = Except.ok true
    ∧ should_skip [("x", false)] ["x"] ["x"] = Except.error PyErr.assertionError := by
  constructor
  · have h := (c5_should_skip_spec [("x", false)] ["x"] []).2 (by decide) (Or.inr rfl)
    rw [h]
    decide
  · exact (c5_should_skip_spec [("x", false)] ["x"] ["x"]).1 (by decide) (by decide)

/-- Claim C10, counterexample: with `a` stored true and `b` never
assigned, `should_skip` over the `if` list `[a, b]` returns without any
`KeyError` — `any` short-circuits at the first true predicate, so a
missing predicate listed after it is never looked up, contradicting the
claim that any never-assigned referenced predicate raises. -/
theorem c10_missing_predicate_no_error_counterexample :
    should_skip [("a", true)] ["a", "b"] [] = Except.ok false := by
  decide

/-- Claim C10 as amended: predicate lookups run left to right and stop
at the first true value; when a never-assigned predicate is reached
before any true one — in particular whenever every predicate before it
is false — the lookup raises `KeyError` instead of treating the missing
predicate as false, in both the `if` and the `unless` position. -/
theorem c10_missing_predicate_keyerror (preds : List (String × Bool))
    (qs rest : List String) (p : String)
    (hp : dictGet preds p = none)
    (hqs : ∀ q ∈ qs, dictGet preds q = some false) :
    should_skip preds (qs ++ p :: rest) [] = Except.error PyErr.keyError
    ∧ should_skip preds [] (qs ++ p :: rest) = Except.error PyErr.keyError := by
  have herr := anyTrue_keyError preds p rest hp qs hqs
  have hne : (qs ++ p :: rest).isEmpty = false := by
    cases qs <;> rfl
  constructor
  · simp only [should_skip]
    rw [hne, herr]
    rfl
  · simp only [should_skip]
    rw [hne, herr]
    rfl

/-- Witness for C10: with `a` stored false and `b` never assigned,
both `if: [a, b]` and `unless: [a, b]` raise `KeyError`. -/
theorem c10_missing_predicate_keyerror_witness :
    should_skip [("a", false)] ["a", "b"] [] = Except.error PyErr.keyError
    ∧ should_skip [("a", false)] [] ["a", "b"] = Except.error PyErr.keyError :=
  c10_missing_predicate_keyerror [("a", false)] ["a"] [] "b" (by decide)
    (by decide)

/-- Witness for C9: the all-punctuation command raises, a worded one is
named. -/
theorem c9_create_name_needs_word_char_witness :
    create_name [] none "!!! ???" = Except.error PyErr.attributeError
    ∧ ∃ r, create_name [] none "echo Hello" = Except.ok r := by
  exact ⟨(c9_create_name_needs_word_char [] none "!!! ???" (by decide)).1 (by decide),
    (c9_create_name_needs_word_char [] none "echo Hello" (by decide)).2
      ⟨'e', by decide, by decide⟩⟩

end Shrun
